import Mathlib

/-!
Verification of the fork reconciliation engine of repo-syncer.

The engine (src/sync.rs) drives external processes (git, gh) and reports
progress over an mpsc channel.  We embed each worker body as a pure function
from an `Env` — the outcomes of the external commands and filesystem queries —
to the ordered list of channel events it sends and the ordered list of
external commands it executes.  A Rust panic inside a worker (possible in
`truncate_error`, which byte-slices) is modelled by the worker emitting no
further events, and `truncate_error` itself returns an `Option`.
-/

namespace RepoSyncer

/-- Fork record (src/types.rs).  `local_path` is kept as the rendered path
string; timestamps are kept opaque since the engine never reads them. -/
structure Fork where
  name : String
  owner : String
  parent_owner : String
  parent_name : String
  default_branch : String
  local_path : String
  is_cloned : Bool
  description : Option String
  primary_language : Option String
  created_at : Option String
  updated_at : Option String
deriving DecidableEq

/-- Captured output of an external command (std::process::Output):
exit-status success flag plus captured stdout/stderr (lossy UTF-8). -/
structure Output where
  success : Bool
  stdout : String
  stderr : String
deriving DecidableEq

/-- The external commands and filesystem mutations the engine issues, with the
arguments that identify each invocation (src/sync.rs). -/
inductive Cmd where
  | ghApiCompare (owner name branch parentOwner : String)
  | ghRepoSync (repo source branch : String)
  | ghRepoClone (repo dest : String)
  | ghRepoArchive (repo : String)
  | ghRepoDelete (repo : String)
  | gitStatus (path : String)
  | gitRevParse (path : String)
  | gitLogUnpushed (path range : String)
  | gitStashPush (path : String)
  | gitStashPop (path : String)
  | gitCheckout (path branch : String)
  | gitPullFFOnly (path : String)
  | gitFetch (path : String)
  | gitResetHard (path ref : String)
  | fsRemoveDirAll (path : String)
  | fsCreateDirAll (path : String)
deriving DecidableEq

/-- Environment: outcomes of external invocations.  `run` returns
`Except.error e` for an invocation error (Rust `Err(e)`) and `Except.ok o`
for a command that ran; `pathExists` answers `Path::exists`; `parentDir`
answers `Path::parent`. -/
structure Env where
  pathExists : String → Bool
  parentDir : String → Option String
  run : Cmd → Except String Output

/-- Per-fork status values (src/types.rs `SyncStatus`); the commit count in
`Synced` is a `Nat` standing for the Rust `u32`. -/
inductive SyncStatus where
  | Pending
  | Checking
  | Cloning
  | Stashing
  | Fetching
  | Syncing
  | Restoring
  | Archiving
  | Deleting
  | Synced (aheadCount : Option Nat)
  | Skipped (reason : String)
  | Failed (reason : String)
deriving DecidableEq

/-- Remediation attached to an actionable error (src/types.rs). -/
structure ErrorAction where
  label : String
  command : String
deriving DecidableEq

/-- Payload of an actionable error (src/types.rs `ErrorDetails`). -/
structure ErrorDetails where
  title : String
  message : String
  action : Option ErrorAction
deriving DecidableEq

/-- Channel events (src/types.rs `SyncResult`); the refresh events are not
produced by the functions verified here. -/
inductive SyncResult where
  | StatusUpdate (idx : Nat) (status : SyncStatus)
  | ForkCloned (idx : Nat)
  | ForkArchived (idx : Nat)
  | ForkDeleted (idx : Nat)
  | ForksRefreshed
  | RefreshFailed (reason : String)
  | ActionableError (details : ErrorDetails)
deriving DecidableEq

/-- Abbreviation for the status-update event of job `idx`. -/
def upd (idx : Nat) (s : SyncStatus) : SyncResult := SyncResult.StatusUpdate idx s

/-- A worker step's outcome: events sent so far and commands executed so far,
in program order. -/
abbrev Trace := List SyncResult × List Cmd

-- ============================================================
-- truncate_error (src/github.rs) at the character level
-- ============================================================

/-- UTF-8 byte length of a character list (Rust `str::len`). -/
def byteLen (cs : List Char) : Nat := (cs.map Char.utf8Size).sum

/-- Rust byte slicing `&s[..n]`: the characters making up the first `n` bytes,
or `none` when `n` is not a character boundary (Rust panics there) or exceeds
the string. -/
def takeBytes (cs : List Char) (n : Nat) : Option (List Char) :=
  match n, cs with
  | 0, _ => some []
  | _ + 1, [] => none
  | m + 1, c :: rest =>
    if c.utf8Size ≤ m + 1 then (takeBytes rest (m + 1 - c.utf8Size)).map (c :: ·)
    else none

/-- Rust `str::trim` on a character list.  Lean's `Char.isWhitespace` covers
the ASCII whitespace subset of Unicode `White_Space`; the engine only ever
distinguishes ASCII whitespace. -/
def rustTrim (cs : List Char) : List Char :=
  ((cs.dropWhile Char.isWhitespace).reverse.dropWhile Char.isWhitespace).reverse

/-- Rust `str::lines().next()`: `none` on the empty string, otherwise the
text before the first newline, with a carriage return stripped when a newline
followed it. -/
def rustLinesFirst (cs : List Char) : Option (List Char) :=
  if cs.isEmpty then none
  else
    let pre := cs.takeWhile (· != '\n')
    if pre.length = cs.length then some pre
    else some (if pre.getLast? = some '\r' then pre.dropLast else pre)

/-- First line of the trimmed input, with the original input as fallback when
the trimmed input is empty — `err.trim().lines().next().unwrap_or(err)`. -/
def cleanedOf (err : List Char) : List Char :=
  (rustLinesFirst (rustTrim err)).getD err

/-- Truncate an error message for display (src/github.rs `truncate_error`) on
character lists.  The length test and the slice are byte-based, as in the
source; `none` models the panic when byte index 27 is not a character
boundary. -/
def truncateErrorChars (err : List Char) : Option (List Char) :=
  let cleaned := cleanedOf err
  if byteLen cleaned > 30 then
    (takeBytes cleaned 27).map (· ++ ('.' :: '.' :: '.' :: []))
  else
    some cleaned

/-- Truncate an error message for display (src/github.rs `truncate_error`);
`none` models the byte-boundary panic. -/
def truncate_error (err : String) : Option String :=
  (truncateErrorChars err.toList).map fun cs => String.mk cs

/-- Events emitted by `send(SyncStatus::Failed(truncate_error(err)))`: the
single failure event, or nothing when `truncate_error` panics (the worker
thread dies before sending). -/
def failEvents (idx : Nat) (err : String) : List SyncResult :=
  match truncate_error err with
  | some m => [upd idx (SyncStatus.Failed m)]
  | none => []

/-- Rust `str::contains` for a non-empty pattern, at the character level. -/
def strContains (s pat : String) : Bool :=
  decide (pat.toList <:+: s.toList)

/-- Rust `str::trim` as a `String` endomap (character-level, so that concrete
traces evaluate by `rfl`). -/
def trimS (s : String) : String := String.mk (rustTrim s.toList)

/-- Rust `str::parse::<u32>()`: optional leading plus sign, one or more
digits, value below 2^32. -/
def parseU32 (s : String) : Option Nat :=
  let ds := match s.toList with
    | '+' :: rest => rest
    | cs => cs
  if ds.isEmpty then none
  else if ds.all Char.isDigit then
    let n := ds.foldl (fun a c => a * 10 + (c.toNat - 48)) 0
    if n < 2 ^ 32 then some n else none
  else none

-- ============================================================
-- Command shapes used by the sync engine (src/sync.rs)
-- ============================================================

/-- The repository slug `owner/name`. -/
def repoSlug (fork : Fork) : String := fork.owner ++ "/" ++ fork.name

/-- The parent slug `parent_owner/parent_name`. -/
def sourceSlug (fork : Fork) : String := fork.parent_owner ++ "/" ++ fork.parent_name

/-- The commits-behind query (`gh api repos/../compare/.. --jq .behind_by`). -/
def compareCmd (fork : Fork) : Cmd :=
  Cmd.ghApiCompare fork.owner fork.name fork.default_branch fork.parent_owner

/-- The remote sync command (`gh repo sync repo --source source --branch b`). -/
def syncCmd (fork : Fork) : Cmd :=
  Cmd.ghRepoSync (repoSlug fork) (sourceSlug fork) fork.default_branch

/-- Working-tree dirtiness check (`git -C path status --porcelain`). -/
def statusCmd (fork : Fork) : Cmd := Cmd.gitStatus fork.local_path

/-- Current-branch query (`git -C path rev-parse --abbrev-ref HEAD`). -/
def revParseCmd (fork : Fork) : Cmd := Cmd.gitRevParse fork.local_path

/-- Unpushed-commits check (`git -C path log origin/branch..HEAD --oneline`). -/
def logCmd (fork : Fork) : Cmd :=
  Cmd.gitLogUnpushed fork.local_path ("origin/" ++ fork.default_branch ++ "..HEAD")

/-- Stash push command (`git -C path stash push -m "repo-syncer auto-stash"`). -/
def stashPushCmd (fork : Fork) : Cmd := Cmd.gitStashPush fork.local_path

/-- Stash pop command. -/
def stashPopCmd (fork : Fork) : Cmd := Cmd.gitStashPop fork.local_path

/-- Checkout of a branch in the fork's clone. -/
def checkoutCmd (fork : Fork) (branch : String) : Cmd :=
  Cmd.gitCheckout fork.local_path branch

/-- Fast-forward-only pull. -/
def pullCmd (fork : Fork) : Cmd := Cmd.gitPullFFOnly fork.local_path

/-- Fetch from origin. -/
def fetchCmd (fork : Fork) : Cmd := Cmd.gitFetch fork.local_path

/-- Hard reset to the remote default branch tip. -/
def resetCmd (fork : Fork) : Cmd :=
  Cmd.gitResetHard fork.local_path ("origin/" ++ fork.default_branch)

/-- Commands that mutate local or remote state.  The read-only commands are
the compare query, status, rev-parse and log. -/
def isMutating : Cmd → Bool
  | Cmd.ghApiCompare _ _ _ _ => false
  | Cmd.gitStatus _ => false
  | Cmd.gitRevParse _ => false
  | Cmd.gitLogUnpushed _ _ => false
  | _ => true

-- ============================================================
-- The sync engine (src/sync.rs)
-- ============================================================

/-- Whether an executed command reports success (`output.status.success()`);
an invocation error counts as not successful. -/
def runOk (env : Env) (c : Cmd) : Bool :=
  match env.run c with
  | Except.ok o => o.success
  | Except.error _ => false

/-- How many commits a fork is behind its upstream (src/sync.rs
`get_commits_behind`): parse the trimmed stdout of the compare query;
`none` when the command fails or the output does not parse. -/
def get_commits_behind (fork : Fork) (env : Env) : Option Nat :=
  match env.run (compareCmd fork) with
  | Except.ok o => if o.success then parseU32 (trimS o.stdout) else none
  | Except.error _ => none

/-- Remote-only sync (src/sync.rs `sync_fork_remote`): commits-behind query,
`Syncing`, then `gh repo sync`; an unsuccessful exit still counts as success
(zero commits) when stderr mentions "already up-to-date" or stdout is
non-empty. -/
def sync_fork_remote (idx : Nat) (fork : Fork) (env : Env) : Trace :=
  let commits_behind := get_commits_behind fork env
  let cmds := [compareCmd fork, syncCmd fork]
  match env.run (syncCmd fork) with
  | Except.ok o =>
    if o.success then
      ([upd idx SyncStatus.Syncing, upd idx (SyncStatus.Synced commits_behind)], cmds)
    else if strContains o.stderr "already up-to-date" || !o.stdout.isEmpty then
      ([upd idx SyncStatus.Syncing, upd idx (SyncStatus.Synced (some 0))], cmds)
    else
      (upd idx SyncStatus.Syncing :: failEvents idx o.stderr, cmds)
  | Except.error e =>
    (upd idx SyncStatus.Syncing :: failEvents idx e, cmds)

/-- Stage of `sync_single_fork` after a successful remote sync: `Fetching`,
fast-forward pull with fetch+reset fallback, best-effort restore of branch
and stash, terminal `Synced`. -/
def localUpdateStage (idx : Nat) (fork : Fork) (env : Env) (commits_behind : Option Nat)
    (original_branch : String) (stashed onDefault : Bool) : Trace :=
  let pullCmds :=
    if runOk env (pullCmd fork) then [pullCmd fork]
    else [pullCmd fork, fetchCmd fork, resetCmd fork]
  let restoreBranch : Trace :=
    if onDefault then ([], [])
    else ([upd idx SyncStatus.Restoring], [checkoutCmd fork original_branch])
  let restoreStash : Trace :=
    if stashed then ([upd idx SyncStatus.Restoring], [stashPopCmd fork])
    else ([], [])
  (upd idx SyncStatus.Fetching :: restoreBranch.1 ++ restoreStash.1
      ++ [upd idx (SyncStatus.Synced commits_behind)],
   pullCmds ++ restoreBranch.2 ++ restoreStash.2)

/-- Stage of `sync_single_fork` around the remote sync: on failure restore
the original branch (if changed) then pop the stash (if created) and
terminate `Failed("sync failed")`; on success continue locally. -/
def syncStage (idx : Nat) (fork : Fork) (env : Env) (commits_behind : Option Nat)
    (original_branch : String) (stashed onDefault : Bool) : Trace :=
  if runOk env (syncCmd fork) then
    let rest := localUpdateStage idx fork env commits_behind original_branch stashed onDefault
    (upd idx SyncStatus.Syncing :: rest.1, syncCmd fork :: rest.2)
  else
    (upd idx SyncStatus.Syncing :: [upd idx (SyncStatus.Failed "sync failed")],
     syncCmd fork ::
       ((if onDefault then [] else [checkoutCmd fork original_branch])
         ++ (if stashed then [stashPopCmd fork] else [])))

/-- Stage of `sync_single_fork` around the default-branch checkout: on
failure pop the stash (if created) and terminate `Failed("checkout failed")`. -/
def checkoutStage (idx : Nat) (fork : Fork) (env : Env) (commits_behind : Option Nat)
    (original_branch : String) (stashed : Bool) : Trace :=
  let onDefault := original_branch == fork.default_branch
  if onDefault then
    syncStage idx fork env commits_behind original_branch stashed true
  else if runOk env (checkoutCmd fork fork.default_branch) then
    let rest := syncStage idx fork env commits_behind original_branch stashed false
    (rest.1, checkoutCmd fork fork.default_branch :: rest.2)
  else
    ([upd idx (SyncStatus.Failed "checkout failed")],
     checkoutCmd fork fork.default_branch :: (if stashed then [stashPopCmd fork] else []))

/-- Stage of `sync_single_fork` around the stash: stash when dirty, fatal
`Failed("stash failed")` when the stash push does not succeed. -/
def stashStage (idx : Nat) (fork : Fork) (env : Env) (commits_behind : Option Nat)
    (original_branch : String) (is_dirty : Bool) : Trace :=
  if is_dirty then
    if runOk env (stashPushCmd fork) then
      let rest := checkoutStage idx fork env commits_behind original_branch true
      (upd idx SyncStatus.Stashing :: rest.1, stashPushCmd fork :: rest.2)
    else
      ([upd idx SyncStatus.Stashing, upd idx (SyncStatus.Failed "stash failed")],
       [stashPushCmd fork])
  else
    checkoutStage idx fork env commits_behind original_branch false

/-- Whether the unpushed-commits check reports at least one commit: the log
command ran (Ok) and printed something; an invocation error is ignored. -/
def unpushedNonempty (fork : Fork) (env : Env) : Bool :=
  match env.run (logCmd fork) with
  | Except.ok o => !o.stdout.isEmpty
  | Except.error _ => false

/-- Sync a single fork with its upstream (src/sync.rs `sync_single_fork`). -/
def sync_single_fork (idx : Nat) (fork : Fork) (dry_run : Bool) (env : Env) : Trace :=
  if dry_run then
    ([upd idx SyncStatus.Checking, upd idx (SyncStatus.Synced none)], [])
  else if !env.pathExists fork.local_path then
    let rest := sync_fork_remote idx fork env
    (upd idx SyncStatus.Checking :: rest.1, rest.2)
  else
    let commits_behind := get_commits_behind fork env
    match env.run (statusCmd fork) with
    | Except.error e =>
      (upd idx SyncStatus.Checking :: failEvents idx e, [compareCmd fork, statusCmd fork])
    | Except.ok stOut =>
      let is_dirty := !stOut.stdout.isEmpty
      match env.run (revParseCmd fork) with
      | Except.ok bOut =>
        if bOut.success then
          let original_branch := trimS bOut.stdout
          if unpushedNonempty fork env then
            ([upd idx SyncStatus.Checking, upd idx (SyncStatus.Skipped "unpushed commits")],
             [compareCmd fork, statusCmd fork, revParseCmd fork, logCmd fork])
          else
            let rest := stashStage idx fork env commits_behind original_branch is_dirty
            (upd idx SyncStatus.Checking :: rest.1,
             [compareCmd fork, statusCmd fork, revParseCmd fork, logCmd fork] ++ rest.2)
        else
          ([upd idx SyncStatus.Checking, upd idx (SyncStatus.Failed "get branch failed")],
           [compareCmd fork, statusCmd fork, revParseCmd fork])
      | Except.error _ =>
        ([upd idx SyncStatus.Checking, upd idx (SyncStatus.Failed "get branch failed")],
         [compareCmd fork, statusCmd fork, revParseCmd fork])

/-- Batch sync (src/sync.rs `start_syncing`): a single worker thread runs the
jobs strictly in list order (with a fixed 100 ms pause between jobs, not
modelled), so the event stream is the concatenation of the per-job streams. -/
def start_syncing (forks_to_sync : List (Nat × Fork)) (dry_run : Bool) (env : Env) :
    List SyncResult :=
  (forks_to_sync.map fun p => (sync_single_fork p.1 p.2 dry_run env).1).flatten

-- ============================================================
-- Clone / archive / delete workers (src/sync.rs)
-- ============================================================

/-- The clone command of a fork. -/
def cloneCmd (fork : Fork) : Cmd := Cmd.ghRepoClone (repoSlug fork) fork.local_path

/-- Tail of `clone_single_fork` after the parent directory is ensured. -/
def cloneRun (idx : Nat) (fork : Fork) (env : Env) (cmdAcc : List Cmd) : Trace :=
  match env.run (cloneCmd fork) with
  | Except.ok o =>
    if o.success then
      ([upd idx (SyncStatus.Synced none), SyncResult.ForkCloned idx],
       cmdAcc ++ [cloneCmd fork])
    else
      (failEvents idx o.stderr, cmdAcc ++ [cloneCmd fork])
  | Except.error e =>
    (failEvents idx e, cmdAcc ++ [cloneCmd fork])

/-- Clone a single fork (src/sync.rs `clone_single_fork`). -/
def clone_single_fork (idx : Nat) (fork : Fork) (dry_run : Bool) (env : Env) : Trace :=
  if dry_run then
    ([upd idx SyncStatus.Cloning, upd idx (SyncStatus.Synced none),
      SyncResult.ForkCloned idx], [])
  else
    match env.parentDir fork.local_path with
    | some parent =>
      match env.run (Cmd.fsCreateDirAll parent) with
      | Except.error e =>
        ([upd idx SyncStatus.Cloning, upd idx (SyncStatus.Failed ("mkdir: " ++ e))],
         [Cmd.fsCreateDirAll parent])
      | Except.ok _ =>
        let rest := cloneRun idx fork env [Cmd.fsCreateDirAll parent]
        (upd idx SyncStatus.Cloning :: rest.1, rest.2)
    | none =>
      let rest := cloneRun idx fork env []
      (upd idx SyncStatus.Cloning :: rest.1, rest.2)

/-- Archive a single fork (src/sync.rs `archive_fork_async`, worker body). -/
def archive_fork_async (idx : Nat) (fork : Fork) (dry_run : Bool) (env : Env) : Trace :=
  if dry_run then
    ([upd idx SyncStatus.Archiving, upd idx (SyncStatus.Synced none),
      SyncResult.ForkArchived idx], [])
  else
    let cmds := [Cmd.ghRepoArchive (repoSlug fork)]
    match env.run (Cmd.ghRepoArchive (repoSlug fork)) with
    | Except.ok o =>
      if o.success then
        ([upd idx SyncStatus.Archiving, upd idx (SyncStatus.Synced none),
          SyncResult.ForkArchived idx], cmds)
      else
        (upd idx SyncStatus.Archiving :: failEvents idx o.stderr, cmds)
    | Except.error e =>
      (upd idx SyncStatus.Archiving :: failEvents idx e, cmds)

/-- Remediation message shown when the delete_repo scope is missing. -/
def scopeMessage (repo : String) : String :=
  "Cannot delete " ++ repo ++ ".\n\nThe \x27delete_repo\x27 scope is required.\n\n" ++
  "Exit the TUI (press q) and run:\n\ngh auth refresh -h github.com -s delete_repo"

/-- Tail of `delete_fork_async` from the remote deletion onwards. -/
def deleteRemoteStage (idx : Nat) (fork : Fork) (env : Env) (cmdAcc : List Cmd) : Trace :=
  let repo := repoSlug fork
  let cmds := cmdAcc ++ [Cmd.ghRepoDelete repo]
  match env.run (Cmd.ghRepoDelete repo) with
  | Except.ok o =>
    if o.success then
      ([upd idx (SyncStatus.Synced none), SyncResult.ForkDeleted idx], cmds)
    else
      let err := o.stderr
      if strContains err "delete_repo" && strContains err "scope" then
        ([upd idx SyncStatus.Pending,
          SyncResult.ActionableError
            { title := "Missing GitHub Scope", message := scopeMessage repo,
              action := none }], cmds)
      else
        (failEvents idx err, cmds)
  | Except.error e =>
    (failEvents idx e, cmds)

/-- Delete a single fork (src/sync.rs `delete_fork_async`, worker body):
remove the local clone if present, then delete the repository remotely; a
missing delete_repo scope reverts the status to Pending and raises an
actionable error instead of failing. -/
def delete_fork_async (idx : Nat) (fork : Fork) (dry_run : Bool) (env : Env) : Trace :=
  if dry_run then
    ([upd idx SyncStatus.Deleting, upd idx (SyncStatus.Synced none),
      SyncResult.ForkDeleted idx], [])
  else if env.pathExists fork.local_path then
    match env.run (Cmd.fsRemoveDirAll fork.local_path) with
    | Except.error e =>
      (upd idx SyncStatus.Deleting :: failEvents idx ("rm local: " ++ e),
       [Cmd.fsRemoveDirAll fork.local_path])
    | Except.ok _ =>
      let rest := deleteRemoteStage idx fork env [Cmd.fsRemoveDirAll fork.local_path]
      (upd idx SyncStatus.Deleting :: rest.1, rest.2)
  else
    let rest := deleteRemoteStage idx fork env []
    (upd idx SyncStatus.Deleting :: rest.1, rest.2)

-- ============================================================
-- App state (src/app.rs), restricted to the fields the verified
-- invariants concern
-- ============================================================

/-- App state (src/app.rs `App`).  The fuzzy matcher is kept abstract as a
scoring function (the fuzzy-matcher crate is external); UI-only fields
(spinner, modal, messages, cache status) are omitted. -/
structure App where
  forks : List Fork
  statuses : List SyncStatus
  tableSelected : Option Nat
  selected : List Bool
  dry_run : Bool
  search_query : String
  search_results : List Nat
  matcher : String → String → Option Int

/-- Build the app state (src/app.rs `App::new`). -/
def App.new (forks : List Fork) (dry_run : Bool)
    (matcher : String → String → Option Int) : App :=
  { forks := forks
    statuses := List.replicate forks.length SyncStatus.Pending
    tableSelected := if forks.isEmpty then none else some 0
    selected := List.replicate forks.length false
    dry_run := dry_run
    search_query := ""
    search_results := List.range forks.length
    matcher := matcher }

/-- Recompute the search results (src/app.rs `App::update_search`): all
indices for an empty query, otherwise the fuzzy matches over
`parent_owner/name` sorted by descending score. -/
def App.update_search (a : App) : App :=
  let results :=
    if a.search_query = "" then List.range a.forks.length
    else
      ((a.forks.enum.filterMap fun p =>
          (a.matcher (p.2.parent_owner ++ "/" ++ p.2.name) a.search_query).map
            fun score => (p.1, score)).mergeSort
        (fun x y => decide (y.2 ≤ x.2))).map Prod.fst
  { a with
    search_results := results
    tableSelected := if results.isEmpty then none else some 0 }

/-- Remove a fork row (src/app.rs `App::remove_fork`): a no-op when the index
is out of range; otherwise the three parallel vectors drop the row and the
search results are recomputed. -/
def App.remove_fork (a : App) (idx : Nat) : App :=
  if idx < a.forks.length then
    App.update_search
      { a with
        forks := a.forks.eraseIdx idx
        statuses := a.statuses.eraseIdx idx
        selected := a.selected.eraseIdx idx }
  else a

/-- The parallel-vector alignment invariant of the app state: statuses and
selection flags match the fork list in length, and every search result is a
valid fork index. -/
def appInv (a : App) : Prop :=
  a.statuses.length = a.forks.length ∧
  a.selected.length = a.forks.length ∧
  ∀ i ∈ a.search_results, i < a.forks.length

-- ============================================================
-- Sample inputs used by witnesses and counterexamples
-- ============================================================

/-- A concrete fork used by witnesses: alice/widget forked from org/widget. -/
def sampleFork : Fork :=
  { name := "widget"
    owner := "alice"
    parent_owner := "org"
    parent_name := "widget"
    default_branch := "main"
    local_path := "/home/alice/forks/alice/widget"
    is_cloned := false
    description := none
    primary_language := none
    created_at := none
    updated_at := none }

/-- Standard successful empty output. -/
def okOut : Output := { success := true, stdout := "", stderr := "" }

/-- Environment of an uncloned fork three commits behind whose remote sync
succeeds. -/
def envRemote3 : Env :=
  { pathExists := fun _ => false
    parentDir := fun _ => none
    run := fun c => match c with
      | Cmd.ghApiCompare _ _ _ _ => Except.ok { success := true, stdout := "3", stderr := "" }
      | _ => Except.ok okOut }

/-- Environment of an uncloned fork whose remote sync exits unsuccessfully
with an "already up-to-date" message on stderr. -/
def envUpToDate : Env :=
  { pathExists := fun _ => false
    parentDir := fun _ => none
    run := fun c => match c with
      | Cmd.ghRepoSync _ _ _ =>
        Except.ok { success := false, stdout := "", stderr := "already up-to-date" }
      | _ => Except.ok okOut }

/-- Environment of a cloned fork with one unpushed commit: the working tree
is clean, HEAD is the default branch, and the unpushed-commits log prints a
line. -/
def envUnpushed : Env :=
  { pathExists := fun _ => true
    parentDir := fun _ => none
    run := fun c => match c with
      | Cmd.gitRevParse _ => Except.ok { success := true, stdout := "main\n", stderr := "" }
      | Cmd.gitLogUnpushed _ _ =>
        Except.ok { success := true, stdout := "abc123 wip\n", stderr := "" }
      | _ => Except.ok okOut }

/-- Environment of a cloned fork that is dirty and on a feature branch, whose
remote sync command fails. -/
def envSyncFail : Env :=
  { pathExists := fun _ => true
    parentDir := fun _ => none
    run := fun c => match c with
      | Cmd.gitStatus _ => Except.ok { success := true, stdout := " M file\n", stderr := "" }
      | Cmd.gitRevParse _ =>
        Except.ok { success := true, stdout := "feature-x\n", stderr := "" }
      | Cmd.gitLogUnpushed _ _ => Except.ok { success := true, stdout := "", stderr := "" }
      | Cmd.ghRepoSync _ _ _ =>
        Except.ok { success := false, stdout := "", stderr := "pull request required" }
      | _ => Except.ok okOut }

/-- Environment in which the remote deletion fails for a missing delete_repo
scope; no local clone exists. -/
def envScope : Env :=
  { pathExists := fun _ => false
    parentDir := fun _ => none
    run := fun c => match c with
      | Cmd.ghRepoDelete _ =>
        Except.ok { success := false, stdout := "",
                    stderr := "HTTP 403: This API operation needs the delete_repo scope" }
      | _ => Except.ok okOut }

/-- Environment in which every command succeeds with empty output and the
clone destination has a parent directory. -/
def envAllOk : Env :=
  { pathExists := fun _ => false
    parentDir := fun _ => some "/home/alice/forks/alice"
    run := fun _ => Except.ok okOut }

-- ============================================================
-- C3: uncloned fork, non-dry sync
-- ============================================================

/-- The command trace of a remote-only sync is always exactly the
commits-behind query followed by the remote sync, whatever their outcomes. -/
theorem sync_fork_remote_cmds (idx : Nat) (fork : Fork) (env : Env) :
    (sync_fork_remote idx fork env).2 = [compareCmd fork, syncCmd fork] := by
  unfold sync_fork_remote
  dsimp only
  split
  · split
    · rfl
    · split <;> rfl
  · rfl

/-- C3: for a fork whose local path does not exist, every non-dry-run
`sync_single_fork` — whether the remote sync succeeds or fails — executes
only the commits-behind query and the remote sync and no local git command;
and on remote-sync success it terminates with `Synced(aheadCount)` where
`aheadCount` is the value the commits-behind query returned before the sync
(`none` if that query failed). -/
theorem sync_single_fork_uncloned_remote_only
    (idx : Nat) (fork : Fork) (env : Env)
    (hpath : env.pathExists fork.local_path = false) :
    (sync_single_fork idx fork false env).2 = [compareCmd fork, syncCmd fork] ∧
    (∀ o : Output, env.run (syncCmd fork) = Except.ok o → o.success = true →
      (sync_single_fork idx fork false env).1 =
        [upd idx SyncStatus.Checking, upd idx SyncStatus.Syncing,
         upd idx (SyncStatus.Synced (get_commits_behind fork env))]) := by
  constructor
  · have h : sync_single_fork idx fork false env =
        (upd idx SyncStatus.Checking :: (sync_fork_remote idx fork env).1,
         (sync_fork_remote idx fork env).2) := by
      simp [sync_single_fork, hpath]
    rw [h]
    exact sync_fork_remote_cmds idx fork env
  · intro o hsync hok
    simp [sync_single_fork, hpath, sync_fork_remote, hsync, hok]

/-- Witness for C3: the sample uncloned fork, three commits behind, runs
exactly the two remote commands and, its sync being successful, reports
`Synced (get_commits_behind ...)`. -/
theorem sync_single_fork_uncloned_remote_only_witness :
    (sync_single_fork 0 sampleFork false envRemote3).2 =
      [compareCmd sampleFork, syncCmd sampleFork] ∧
    (sync_single_fork 0 sampleFork false envRemote3).1 =
      [upd 0 SyncStatus.Checking, upd 0 SyncStatus.Syncing,
       upd 0 (SyncStatus.Synced (get_commits_behind sampleFork envRemote3))] :=
  ⟨(sync_single_fork_uncloned_remote_only 0 sampleFork envRemote3 rfl).1,
   (sync_single_fork_uncloned_remote_only 0 sampleFork envRemote3 rfl).2
     okOut rfl rfl⟩

-- ============================================================
-- C9: classification of an unsuccessful remote sync exit
-- ============================================================

/-- C9: when the remote sync command exits unsuccessfully, `sync_fork_remote`
reports `Synced (some 0)` if stderr contains "already up-to-date" or stdout
is non-empty, and only otherwise produces a `Failed` event (with the
truncated stderr; no event at all if the truncation panics). -/
theorem sync_fork_remote_classification
    (idx : Nat) (fork : Fork) (env : Env) (o : Output)
    (hsync : env.run (syncCmd fork) = Except.ok o)
    (hfail : o.success = false) :
    (sync_fork_remote idx fork env).1 =
      upd idx SyncStatus.Syncing ::
        (if strContains o.stderr "already up-to-date" || !o.stdout.isEmpty then
          [upd idx (SyncStatus.Synced (some 0))]
        else
          failEvents idx o.stderr) := by
  cases h : strContains o.stderr "already up-to-date" || !o.stdout.isEmpty <;>
    simp [sync_fork_remote, hsync, hfail, h]

/-- Witness for C9: an unsuccessful exit whose stderr says
"already up-to-date" is reported as `Synced (some 0)`. -/
theorem sync_fork_remote_classification_witness :
    (sync_fork_remote 0 sampleFork envUpToDate).1 =
      upd 0 SyncStatus.Syncing ::
        (if strContains "already up-to-date" "already up-to-date"
            || !("" : String).isEmpty then
          [upd 0 (SyncStatus.Synced (some 0))]
        else
          failEvents 0 "already up-to-date") :=
  sync_fork_remote_classification 0 sampleFork envUpToDate
    { success := false, stdout := "", stderr := "already up-to-date" } rfl rfl

-- ============================================================
-- C1: unpushed commits skip before any mutation
-- ============================================================

/-- C1: for a cloned fork whose unpushed-commits check reports output, a
non-dry-run `sync_single_fork` terminates with `Skipped("unpushed commits")`
having run only the four read-only queries: no stash, no checkout, no remote
sync, and no mutating command at all. -/
theorem sync_single_fork_unpushed_skips
    (idx : Nat) (fork : Fork) (env : Env) (stOut bOut lo : Output)
    (hpath : env.pathExists fork.local_path = true)
    (hstatus : env.run (statusCmd fork) = Except.ok stOut)
    (hrev : env.run (revParseCmd fork) = Except.ok bOut)
    (hrevok : bOut.success = true)
    (hlog : env.run (logCmd fork) = Except.ok lo)
    (hne : lo.stdout.isEmpty = false) :
    sync_single_fork idx fork false env =
      ([upd idx SyncStatus.Checking, upd idx (SyncStatus.Skipped "unpushed commits")],
       [compareCmd fork, statusCmd fork, revParseCmd fork, logCmd fork]) ∧
    ∀ c ∈ (sync_single_fork idx fork false env).2, isMutating c = false := by
  have h : sync_single_fork idx fork false env =
      ([upd idx SyncStatus.Checking, upd idx (SyncStatus.Skipped "unpushed commits")],
       [compareCmd fork, statusCmd fork, revParseCmd fork, logCmd fork]) := by
    simp [sync_single_fork, hpath, hstatus, hrev, hrevok, unpushedNonempty, hlog, hne]
  refine ⟨h, ?_⟩
  rw [h]
  intro c hc
  fin_cases hc <;> rfl

/-- Witness for C1: the sample cloned fork with an unpushed commit is
skipped after the four read-only queries. -/
theorem sync_single_fork_unpushed_skips_witness :
    (sync_single_fork 0 sampleFork false envUnpushed =
      ([upd 0 SyncStatus.Checking, upd 0 (SyncStatus.Skipped "unpushed commits")],
       [compareCmd sampleFork, statusCmd sampleFork, revParseCmd sampleFork,
        logCmd sampleFork]) ∧
     ∀ c ∈ (sync_single_fork 0 sampleFork false envUnpushed).2, isMutating c = false) :=
  sync_single_fork_unpushed_skips 0 sampleFork envUnpushed
    okOut { success := true, stdout := "main\n", stderr := "" }
    { success := true, stdout := "abc123 wip\n", stderr := "" }
    rfl rfl rfl rfl rfl rfl

-- ============================================================
-- C5: missing delete_repo scope is actionable, not fatal
-- ============================================================

/-- C5: when the remote deletion fails with stderr mentioning both
"delete_repo" and "scope", the delete worker sends no `Failed` status and no
`ForkDeleted` event: it reverts the status to `Pending` and sends exactly one
`ActionableError` carrying the remediation message. -/
theorem delete_fork_missing_scope_actionable
    (idx : Nat) (fork : Fork) (env : Env) (o : Output)
    (hrm : env.pathExists fork.local_path = true →
      (env.run (Cmd.fsRemoveDirAll fork.local_path)).isOk = true)
    (hdel : env.run (Cmd.ghRepoDelete (repoSlug fork)) = Except.ok o)
    (hfail : o.success = false)
    (h1 : strContains o.stderr "delete_repo" = true)
    (h2 : strContains o.stderr "scope" = true) :
    (delete_fork_async idx fork false env).1 =
      [upd idx SyncStatus.Deleting, upd idx SyncStatus.Pending,
       SyncResult.ActionableError
         { title := "Missing GitHub Scope", message := scopeMessage (repoSlug fork),
           action := none }] := by
  have htail : (deleteRemoteStage idx fork env [Cmd.fsRemoveDirAll fork.local_path]).1 =
      [upd idx SyncStatus.Pending,
       SyncResult.ActionableError
         { title := "Missing GitHub Scope", message := scopeMessage (repoSlug fork),
           action := none }] := by
    simp [deleteRemoteStage, hdel, hfail, h1, h2]
  have htail0 : (deleteRemoteStage idx fork env []).1 =
      [upd idx SyncStatus.Pending,
       SyncResult.ActionableError
         { title := "Missing GitHub Scope", message := scopeMessage (repoSlug fork),
           action := none }] := by
    simp [deleteRemoteStage, hdel, hfail, h1, h2]
  by_cases hp : env.pathExists fork.local_path = true
  · have hok := hrm hp
    cases hrun : env.run (Cmd.fsRemoveDirAll fork.local_path) with
    | ok u => simp [delete_fork_async, hp, hrun, htail]
    | error e => rw [hrun] at hok; simp [Except.isOk, Except.toBool] at hok
  · simp [delete_fork_async, hp, htail0]

/-- Witness for C5: the sample fork, deletion rejected for a missing
delete_repo scope, yields Pending plus one actionable error. -/
theorem delete_fork_missing_scope_actionable_witness :
    (delete_fork_async 0 sampleFork false envScope).1 =
      [upd 0 SyncStatus.Deleting, upd 0 SyncStatus.Pending,
       SyncResult.ActionableError
         { title := "Missing GitHub Scope", message := scopeMessage (repoSlug sampleFork),
           action := none }] :=
  delete_fork_missing_scope_actionable 0 sampleFork envScope
    { success := false, stdout := "",
      stderr := "HTTP 403: This API operation needs the delete_repo scope" }
    (fun h => by simp [envScope] at h) rfl rfl (by rfl) (by rfl)

-- ============================================================
-- C6 (amended): dry-run behavior
-- ============================================================

/-- C6 (amended): with dry_run set, each operation kind invokes no external
process and terminates with `Synced none` after its initial status; the
payload is always `none`, which is what a non-dry-run success reports for
clone, archive and delete but not in general for sync. -/
theorem dry_run_no_process_synced_none (idx : Nat) (fork : Fork) (env : Env) :
    sync_single_fork idx fork true env =
      ([upd idx SyncStatus.Checking, upd idx (SyncStatus.Synced none)], []) ∧
    clone_single_fork idx fork true env =
      ([upd idx SyncStatus.Cloning, upd idx (SyncStatus.Synced none),
        SyncResult.ForkCloned idx], []) ∧
    archive_fork_async idx fork true env =
      ([upd idx SyncStatus.Archiving, upd idx (SyncStatus.Synced none),
        SyncResult.ForkArchived idx], []) ∧
    delete_fork_async idx fork true env =
      ([upd idx SyncStatus.Deleting, upd idx (SyncStatus.Synced none),
        SyncResult.ForkDeleted idx], []) :=
  ⟨rfl, rfl, rfl, rfl⟩

/-- Counterexample for C6 as stated: for the sample fork three commits
behind, a non-dry-run sync succeeds with terminal payload `some 3`, while the
dry run of the same job reports payload `none` — the dry-run terminal status
does not equal what the non-dry-run success reports. -/
theorem dry_run_payload_counterexample :
    (sync_single_fork 0 sampleFork false envRemote3).1.getLast? =
      some (upd 0 (SyncStatus.Synced (some 3))) ∧
    (sync_single_fork 0 sampleFork true envRemote3).1.getLast? =
      some (upd 0 (SyncStatus.Synced none)) ∧
    SyncStatus.Synced (some 3) ≠ SyncStatus.Synced none :=
  ⟨rfl, rfl, by simp⟩

-- ============================================================
-- C2: rollback in reverse order on remote-sync failure
-- ============================================================

/-- C2: for a cloned fork that reaches the remote sync (no unpushed commits;
stash and checkout succeeded where needed), a failing remote sync triggers
the rollback in reverse order — checkout of the original branch when the
default branch had been checked out, then a stash pop when a stash was
created — and the run terminates with exactly `Failed("sync failed")`; no
pull, fetch or reset is attempted. -/
theorem sync_single_fork_sync_failure_rollback
    (idx : Nat) (fork : Fork) (env : Env) (stOut bOut : Output)
    (hpath : env.pathExists fork.local_path = true)
    (hstatus : env.run (statusCmd fork) = Except.ok stOut)
    (hrev : env.run (revParseCmd fork) = Except.ok bOut)
    (hrevok : bOut.success = true)
    (hnopush : unpushedNonempty fork env = false)
    (hstash : stOut.stdout.isEmpty = false → runOk env (stashPushCmd fork) = true)
    (hco : trimS bOut.stdout ≠ fork.default_branch →
      runOk env (checkoutCmd fork fork.default_branch) = true)
    (hsync : runOk env (syncCmd fork) = false) :
    sync_single_fork idx fork false env =
      ([upd idx SyncStatus.Checking]
        ++ (if stOut.stdout.isEmpty then [] else [upd idx SyncStatus.Stashing])
        ++ [upd idx SyncStatus.Syncing, upd idx (SyncStatus.Failed "sync failed")],
       [compareCmd fork, statusCmd fork, revParseCmd fork, logCmd fork]
        ++ (if stOut.stdout.isEmpty then [] else [stashPushCmd fork])
        ++ (if trimS bOut.stdout = fork.default_branch then []
            else [checkoutCmd fork fork.default_branch])
        ++ [syncCmd fork]
        ++ (if trimS bOut.stdout = fork.default_branch then []
            else [checkoutCmd fork (trimS bOut.stdout)])
        ++ (if stOut.stdout.isEmpty then [] else [stashPopCmd fork])) := by
  by_cases hd : stOut.stdout.isEmpty = true
  · by_cases hb : trimS bOut.stdout = fork.default_branch
    · simp [sync_single_fork, stashStage, checkoutStage, syncStage,
        hpath, hstatus, hrev, hrevok, hnopush, hsync, hd, hb]
    · have hcok := hco hb
      simp [sync_single_fork, stashStage, checkoutStage, syncStage,
        hpath, hstatus, hrev, hrevok, hnopush, hsync, hd, hb, hcok]
  · have hd' : stOut.stdout.isEmpty = false := by
      cases h : stOut.stdout.isEmpty
      · rfl
      · exact absurd h hd
    have hstok := hstash hd'
    by_cases hb : trimS bOut.stdout = fork.default_branch
    · simp [sync_single_fork, stashStage, checkoutStage, syncStage,
        hpath, hstatus, hrev, hrevok, hnopush, hsync, hd', hstok, hb]
    · have hcok := hco hb
      simp [sync_single_fork, stashStage, checkoutStage, syncStage,
        hpath, hstatus, hrev, hrevok, hnopush, hsync, hd', hstok, hb, hcok]

/-- Witness for C2: the sample fork, dirty and on branch feature-x, whose
remote sync fails: the rollback checks out feature-x again, pops the stash,
and the run ends with `Failed("sync failed")`. -/
theorem sync_single_fork_sync_failure_rollback_witness :
    sync_single_fork 0 sampleFork false envSyncFail =
      ([upd 0 SyncStatus.Checking]
        ++ (if (" M file\n" : String).isEmpty then [] else [upd 0 SyncStatus.Stashing])
        ++ [upd 0 SyncStatus.Syncing, upd 0 (SyncStatus.Failed "sync failed")],
       [compareCmd sampleFork, statusCmd sampleFork, revParseCmd sampleFork,
        logCmd sampleFork]
        ++ (if (" M file\n" : String).isEmpty then [] else [stashPushCmd sampleFork])
        ++ (if trimS "feature-x\n" = sampleFork.default_branch then []
            else [checkoutCmd sampleFork sampleFork.default_branch])
        ++ [syncCmd sampleFork]
        ++ (if trimS "feature-x\n" = sampleFork.default_branch then []
            else [checkoutCmd sampleFork (trimS "feature-x\n")])
        ++ (if (" M file\n" : String).isEmpty then [] else [stashPopCmd sampleFork])) :=
  sync_single_fork_sync_failure_rollback 0 sampleFork envSyncFail
    { success := true, stdout := " M file\n", stderr := "" }
    { success := true, stdout := "feature-x\n", stderr := "" }
    rfl rfl rfl rfl rfl (fun _ => rfl) (fun _ => rfl) rfl

-- ============================================================
-- C4: structural versus terminal event ordering
-- ============================================================

/-- Whether an event is one of the per-job structural events (fork cloned,
archived or deleted). -/
def isStructuralEvent : SyncResult → Bool
  | SyncResult.ForkCloned _ => true
  | SyncResult.ForkArchived _ => true
  | SyncResult.ForkDeleted _ => true
  | _ => false

/-- Whether an event is a terminal status update (`Synced`, `Skipped` or
`Failed`). -/
def isTerminalEvent : SyncResult → Bool
  | SyncResult.StatusUpdate _ (SyncStatus.Synced _) => true
  | SyncResult.StatusUpdate _ (SyncStatus.Skipped _) => true
  | SyncResult.StatusUpdate _ (SyncStatus.Failed _) => true
  | _ => false

/-- Ordering discipline of a single-operation event stream: at most one
structural event, and when one is present the stream ends with exactly one
terminal status immediately followed by the structural event, nothing of
either kind earlier. -/
def opOrder (es : List SyncResult) : Prop :=
  es.countP isStructuralEvent ≤ 1 ∧
  (es.countP isStructuralEvent = 1 →
    ∃ pre t s, es = pre ++ [t, s] ∧ isTerminalEvent t = true ∧
      isStructuralEvent s = true ∧
      pre.countP isStructuralEvent = 0 ∧ pre.countP isTerminalEvent = 0 ∧
      es.countP isTerminalEvent = 1)

/-- A stream with no structural event satisfies the ordering discipline. -/
theorem opOrder_of_count0 (es : List SyncResult)
    (h : es.countP isStructuralEvent = 0) : opOrder es := by
  constructor
  · omega
  · intro h1
    omega

/-- A stream without structural or terminal events in its prefix and a
terminal-then-structural tail satisfies the ordering discipline. -/
theorem opOrder_of_tail (pre : List SyncResult) (t s : SyncResult)
    (h0 : pre.countP isStructuralEvent = 0) (h1 : pre.countP isTerminalEvent = 0)
    (ht : isTerminalEvent t = true) (hs : isStructuralEvent s = true)
    (ht' : isStructuralEvent t = false) (hs' : isTerminalEvent s = false) :
    opOrder (pre ++ [t, s]) := by
  constructor
  · simp [List.countP_append, List.countP_cons, h0, ht', hs]
  · intro _
    exact ⟨pre, t, s, rfl, ht, hs, h0, h1,
      by simp [List.countP_append, List.countP_cons, h1, ht, hs']⟩

/-- The events of a failure send contain no structural and at most one
terminal event. -/
theorem failEvents_counts (idx : Nat) (err : String) :
    (failEvents idx err).countP isStructuralEvent = 0 ∧
    (failEvents idx err).countP isTerminalEvent ≤ 1 := by
  unfold failEvents
  cases truncate_error err <;> simp [List.countP_cons, isStructuralEvent, isTerminalEvent, upd]

/-- The clone tail preceded by the `Cloning` status obeys the ordering
discipline. -/
theorem cloneRun_opOrder (idx : Nat) (fork : Fork) (env : Env) (acc : List Cmd) :
    opOrder (upd idx SyncStatus.Cloning :: (cloneRun idx fork env acc).1) := by
  unfold cloneRun
  split
  · split
    · exact opOrder_of_tail [upd idx SyncStatus.Cloning] _ _ (by rfl) (by rfl)
        (by rfl) (by rfl) (by rfl) (by rfl)
    · apply opOrder_of_count0
      simp [List.countP_cons, isStructuralEvent, upd, (failEvents_counts idx _).1]
  · apply opOrder_of_count0
    simp [List.countP_cons, isStructuralEvent, upd, (failEvents_counts idx _).1]

/-- The delete tail preceded by the `Deleting` status obeys the ordering
discipline. -/
theorem deleteRemoteStage_opOrder (idx : Nat) (fork : Fork) (env : Env) (acc : List Cmd) :
    opOrder (upd idx SyncStatus.Deleting :: (deleteRemoteStage idx fork env acc).1) := by
  unfold deleteRemoteStage
  dsimp only
  split
  · split
    · exact opOrder_of_tail [upd idx SyncStatus.Deleting] _ _ (by rfl) (by rfl)
        (by rfl) (by rfl) (by rfl) (by rfl)
    · split
      · apply opOrder_of_count0
        simp [List.countP_cons, isStructuralEvent, upd]
      · apply opOrder_of_count0
        simp [List.countP_cons, isStructuralEvent, upd, (failEvents_counts idx _).1]
  · apply opOrder_of_count0
    simp [List.countP_cons, isStructuralEvent, upd, (failEvents_counts idx _).1]

/-- C4 (amended): every clone, archive or delete run emits at most one
structural event, and whenever it emits one — the success case — the stream
ends with exactly one terminal status immediately followed by the structural
event: the terminal status is sent before the structural event, one of
each. -/
theorem op_success_event_order (idx : Nat) (fork : Fork) (dry : Bool) (env : Env) :
    opOrder (clone_single_fork idx fork dry env).1 ∧
    opOrder (archive_fork_async idx fork dry env).1 ∧
    opOrder (delete_fork_async idx fork dry env).1 := by
  refine ⟨?_, ?_, ?_⟩
  · unfold clone_single_fork
    split
    · exact opOrder_of_tail [upd idx SyncStatus.Cloning] _ _ (by rfl) (by rfl)
        (by rfl) (by rfl) (by rfl) (by rfl)
    · split
      · split
        · apply opOrder_of_count0
          simp [List.countP_cons, isStructuralEvent, upd]
        · dsimp only
          exact cloneRun_opOrder idx fork env _
      · dsimp only
        exact cloneRun_opOrder idx fork env _
  · unfold archive_fork_async
    split
    · exact opOrder_of_tail [upd idx SyncStatus.Archiving] _ _ (by rfl) (by rfl)
        (by rfl) (by rfl) (by rfl) (by rfl)
    · dsimp only
      split
      · split
        · exact opOrder_of_tail [upd idx SyncStatus.Archiving] _ _ (by rfl) (by rfl)
            (by rfl) (by rfl) (by rfl) (by rfl)
        · apply opOrder_of_count0
          simp [List.countP_cons, isStructuralEvent, upd, (failEvents_counts idx _).1]
      · apply opOrder_of_count0
        simp [List.countP_cons, isStructuralEvent, upd, (failEvents_counts idx _).1]
  · unfold delete_fork_async
    split
    · exact opOrder_of_tail [upd idx SyncStatus.Deleting] _ _ (by rfl) (by rfl)
        (by rfl) (by rfl) (by rfl) (by rfl)
    · split
      · split
        · apply opOrder_of_count0
          simp [List.countP_cons, isStructuralEvent, upd, (failEvents_counts idx _).1]
        · dsimp only
          exact deleteRemoteStage_opOrder idx fork env _
      · dsimp only
        exact deleteRemoteStage_opOrder idx fork env _

/-- Witness for C4 (amended): the discipline at a concrete successful
non-dry-run clone. -/
theorem op_success_event_order_witness :
    opOrder (clone_single_fork 0 sampleFork false envAllOk).1 :=
  (op_success_event_order 0 sampleFork false envAllOk).1

/-- Counterexample for C4 as stated: a concrete successful non-dry-run clone
emits exactly one structural and exactly one terminal event, but the
structural event comes after, not before, the terminal status. -/
theorem op_event_order_counterexample :
    (clone_single_fork 0 sampleFork false envAllOk).1.countP isStructuralEvent = 1 ∧
    (clone_single_fork 0 sampleFork false envAllOk).1.countP isTerminalEvent = 1 ∧
    ¬ ((clone_single_fork 0 sampleFork false envAllOk).1.findIdx isStructuralEvent <
       (clone_single_fork 0 sampleFork false envAllOk).1.findIdx isTerminalEvent) := by
  have h : (clone_single_fork 0 sampleFork false envAllOk).1 =
      [upd 0 SyncStatus.Cloning, upd 0 (SyncStatus.Synced none),
       SyncResult.ForkCloned 0] := rfl
  rw [h]
  refine ⟨by rfl, by rfl, ?_⟩
  simp [List.findIdx, List.findIdx.go, isStructuralEvent, isTerminalEvent, upd]

-- ============================================================
-- C8: truncate_error
-- ============================================================

/-- On all-single-byte lists, the byte length is the character count. -/
theorem byteLen_ascii (l : List Char) (h : ∀ c ∈ l, c.utf8Size = 1) :
    byteLen l = l.length := by
  induction l with
  | nil => rfl
  | cons c cs ih =>
    have hc := h c (List.mem_cons_self c cs)
    have ih' := ih fun x hx => h x (List.mem_cons_of_mem c hx)
    simp only [byteLen, List.map_cons, List.sum_cons, List.length_cons] at ih' ⊢
    omega

/-- On all-single-byte lists every byte index in range is a character
boundary, so the byte slice is the character take. -/
theorem takeBytes_ascii (l : List Char) (n : Nat) (h : ∀ c ∈ l, c.utf8Size = 1)
    (hn : n ≤ l.length) : takeBytes l n = some (l.take n) := by
  induction l generalizing n with
  | nil =>
    cases n with
    | zero => rfl
    | succ m => simp at hn
  | cons c cs ih =>
    cases n with
    | zero => rfl
    | succ m =>
      have hc := h c (List.mem_cons_self c cs)
      have hm : m ≤ cs.length := by simp at hn; omega
      have ih' := ih m (fun x hx => h x (List.mem_cons_of_mem c hx)) hm
      simp only [takeBytes, hc]
      rw [if_pos (by omega)]
      have : m + 1 - 1 = m := by omega
      rw [this, ih']
      simp

/-- The trimmed list is a sublist of the original. -/
theorem rustTrim_sublist (l : List Char) : List.Sublist (rustTrim l) l := by
  unfold rustTrim
  have h1 : List.Sublist (l.dropWhile Char.isWhitespace) l := List.dropWhile_sublist _
  have h2 : List.Sublist ((l.dropWhile Char.isWhitespace).reverse.dropWhile Char.isWhitespace)
      (l.dropWhile Char.isWhitespace).reverse := List.dropWhile_sublist _
  have h3 := h2.reverse
  rw [List.reverse_reverse] at h3
  exact h3.trans h1

/-- A first line returned by the Rust lines iterator is made of characters
of the input, none of them a newline. -/
theorem rustLinesFirst_mem (l line : List Char) (h : rustLinesFirst l = some line) :
    (∀ c ∈ line, c ∈ l) ∧ ∀ c ∈ line, c ≠ '\n' := by
  unfold rustLinesFirst at h
  by_cases he : l.isEmpty
  · simp [he] at h
  · simp only [he, if_false, Bool.false_eq_true] at h
    have hpre : ∀ c ∈ l.takeWhile (· != '\n'), c ∈ l ∧ c ≠ '\n' := by
      intro c hc
      refine ⟨(List.takeWhile_sublist _).subset hc, ?_⟩
      have := List.mem_takeWhile_imp hc
      simpa using this
    split at h
    · rw [← Option.some_inj.mp h]
      exact ⟨fun c hc => (hpre c hc).1, fun c hc => (hpre c hc).2⟩
    · rw [← Option.some_inj.mp h]
      split
      · constructor
        · intro c hc
          exact (hpre c ((List.dropLast_sublist _).subset hc)).1
        · intro c hc
          exact (hpre c ((List.dropLast_sublist _).subset hc)).2
      · exact ⟨fun c hc => (hpre c hc).1, fun c hc => (hpre c hc).2⟩

/-- C8 (amended): on an input of single-byte characters whose trimmed form is
non-empty, `truncate_error` returns (no panic) a single-line result of at
most 30 characters, namely the first line of the trimmed input, cut to its
first 27 characters plus "..." when it exceeds 30 bytes. -/
theorem truncate_error_ascii_single_line (err : String)
    (hascii : ∀ c ∈ err.toList, c.utf8Size = 1)
    (hne : rustTrim err.toList ≠ []) :
    ∃ out : String,
      truncate_error err = some out ∧
      out.toList.length ≤ 30 ∧
      '\n' ∉ out.toList ∧
      out.toList = (if byteLen (cleanedOf err.toList) > 30
        then (cleanedOf err.toList).take 27 ++ ['.', '.', '.']
        else cleanedOf err.toList) := by
  obtain ⟨line, hline⟩ : ∃ line, rustLinesFirst (rustTrim err.toList) = some line := by
    unfold rustLinesFirst
    rw [if_neg (by simpa [List.isEmpty_iff] using hne)]
    dsimp only
    split <;> exact ⟨_, rfl⟩
  have hclean : cleanedOf err.toList = line := by
    unfold cleanedOf
    rw [hline]
    rfl
  obtain ⟨hmem, hnl⟩ := rustLinesFirst_mem _ _ hline
  have hlineascii : ∀ c ∈ line, c.utf8Size = 1 := fun c hc =>
    hascii c ((rustTrim_sublist err.toList).subset (hmem c hc))
  have hbl : byteLen line = line.length := byteLen_ascii line hlineascii
  by_cases hlong : byteLen line > 30
  · have h27 : takeBytes line 27 = some (line.take 27) :=
      takeBytes_ascii line 27 hlineascii (by omega)
    refine ⟨String.mk (line.take 27 ++ ['.', '.', '.']), ?_, ?_, ?_, ?_⟩
    · unfold truncate_error truncateErrorChars
      rw [hclean, if_pos hlong, h27]
      rfl
    · have h30 : (line.take 27).length = 27 := by
        rw [List.length_take]
        omega
      simp [h30]
    · intro hc
      simp only [String.toList] at hc
      rcases List.mem_append.mp hc with h | h
      · exact hnl _ (List.take_subset _ _ h) rfl
      · simp at h
    · rw [hclean, if_pos hlong]
      rfl
  · refine ⟨String.mk line, ?_, ?_, ?_, ?_⟩
    · unfold truncate_error truncateErrorChars
      rw [hclean, if_neg hlong]
      rfl
    · simpa [← hbl] using hlong
    · intro hc
      exact hnl _ hc rfl
    · rw [hclean, if_neg hlong]
      rfl

/-- Witness for C8 (amended): a long single-line ASCII message is truncated
to its first 27 characters plus dots. -/
theorem truncate_error_ascii_single_line_witness :
    ∃ out : String,
      truncate_error "error: something quite long happened here" = some out ∧
      out.toList.length ≤ 30 ∧
      '\n' ∉ out.toList ∧
      out.toList =
        (if byteLen (cleanedOf ("error: something quite long happened here").toList) > 30
         then (cleanedOf ("error: something quite long happened here").toList).take 27
            ++ ['.', '.', '.']
         else cleanedOf ("error: something quite long happened here").toList) :=
  truncate_error_ascii_single_line "error: something quite long happened here"
    (by decide) (by decide)

/-- Counterexample for C8 as stated: on an input whose byte index 27 falls
inside a multi-byte character, `truncate_error` does not return (the source
panics slicing `&cleaned[..27]`); and on a whitespace-only input the fallback
to the untrimmed input produces a result that is not single-line. -/
theorem truncate_error_counterexample :
    truncate_error (String.mk (List.replicate 26 'a' ++ ['€', 'x', 'x'])) = none ∧
    truncate_error (String.mk (List.replicate 31 '\n')) =
      some (String.mk (List.replicate 27 '\n' ++ ['.', '.', '.'])) ∧
    '\n' ∈ (String.mk (List.replicate 27 '\n' ++ ['.', '.', '.'])).toList :=
  ⟨rfl, rfl, by decide⟩

-- ============================================================
-- C10: parallel-vector alignment of the app state
-- ============================================================

/-- A search recomputation leaves the vector lengths untouched and produces
only valid fork indices, for any matcher behaviour. -/
theorem update_search_inv (a : App)
    (h1 : a.statuses.length = a.forks.length)
    (h2 : a.selected.length = a.forks.length) :
    appInv (App.update_search a) := by
  refine ⟨h1, h2, ?_⟩
  intro i hi
  unfold App.update_search at hi
  dsimp only at hi
  split at hi
  · exact List.mem_range.mp hi
  · obtain ⟨x, hx, hxi⟩ := List.mem_map.mp hi
    rw [List.mem_mergeSort] at hx
    obtain ⟨p, hp, hpx⟩ := List.mem_filterMap.mp hx
    obtain ⟨score, _, hsx⟩ := Option.map_eq_some.mp hpx
    have := List.fst_lt_of_mem_enum hp
    rw [← hsx] at hxi
    simpa [← hxi] using this

/-- C10: the parallel vectors stay aligned — `App.new` establishes the
invariant (equal lengths of forks, statuses and selection flags; search
results all valid indices), `remove_fork` preserves it, and `remove_fork`
with an out-of-range index is a no-op. -/
theorem app_parallel_vectors_invariant :
    (∀ (forks : List Fork) (dry : Bool) (m : String → String → Option Int),
      appInv (App.new forks dry m)) ∧
    (∀ (a : App) (idx : Nat), appInv a → appInv (App.remove_fork a idx)) ∧
    (∀ (a : App) (idx : Nat), a.forks.length ≤ idx → App.remove_fork a idx = a) := by
  refine ⟨?_, ?_, ?_⟩
  · intro forks dry m
    refine ⟨by simp [App.new], by simp [App.new], ?_⟩
    intro i hi
    simpa [App.new] using List.mem_range.mp hi
  · intro a idx hinv
    obtain ⟨h1, h2, h3⟩ := hinv
    unfold App.remove_fork
    split
    · apply update_search_inv <;>
        simp [List.length_eraseIdx, h1, h2]
    · exact ⟨h1, h2, h3⟩
  · intro a idx h
    unfold App.remove_fork
    rw [if_neg (by omega)]

/-- Witness for C10: the invariant at a concrete two-fork app state, before
and after removing index 0, and the no-op at the out-of-range index 5. -/
theorem app_parallel_vectors_invariant_witness :
    appInv (App.new [sampleFork, sampleFork] false fun _ _ => none) ∧
    appInv (App.remove_fork (App.new [sampleFork, sampleFork] false fun _ _ => none) 0) ∧
    App.remove_fork (App.new [sampleFork, sampleFork] false fun _ _ => none) 5 =
      App.new [sampleFork, sampleFork] false fun _ _ => none :=
  ⟨app_parallel_vectors_invariant.1 [sampleFork, sampleFork] false (fun _ _ => none),
   app_parallel_vectors_invariant.2.1 _ 0
     (app_parallel_vectors_invariant.1 [sampleFork, sampleFork] false (fun _ _ => none)),
   app_parallel_vectors_invariant.2.2 _ 5 (by simp [App.new])⟩

-- ============================================================
-- C7: strict sequential ordering of a batch sync
-- ============================================================

/-- The job index an event is routed to (the actionable-error and refresh
events carry no index). -/
def eventIdx : SyncResult → Option Nat
  | SyncResult.StatusUpdate i _ => some i
  | SyncResult.ForkCloned i => some i
  | SyncResult.ForkArchived i => some i
  | SyncResult.ForkDeleted i => some i
  | SyncResult.ForksRefreshed => none
  | SyncResult.RefreshFailed _ => none
  | SyncResult.ActionableError _ => none

/-- All events of a list are routed to job `idx`. -/
def allIdx (idx : Nat) (es : List SyncResult) : Prop :=
  ∀ e ∈ es, eventIdx e = some idx

theorem allIdx_nil (idx : Nat) : allIdx idx [] := by
  intro e he
  simp at he

theorem allIdx_cons (idx : Nat) (s : SyncStatus) (es : List SyncResult)
    (h : allIdx idx es) : allIdx idx (upd idx s :: es) := by
  intro e he
  rcases List.mem_cons.mp he with rfl | he'
  · rfl
  · exact h e he'

theorem allIdx_append (idx : Nat) (l1 l2 : List SyncResult)
    (h1 : allIdx idx l1) (h2 : allIdx idx l2) : allIdx idx (l1 ++ l2) := by
  intro e he
  rcases List.mem_append.mp he with h | h
  · exact h1 e h
  · exact h2 e h

theorem allIdx_ite (idx : Nat) (c : Prop) [Decidable c] (l1 l2 : List SyncResult)
    (h1 : allIdx idx l1) (h2 : allIdx idx l2) : allIdx idx (if c then l1 else l2) := by
  split
  · exact h1
  · exact h2

theorem allIdx_failEvents (idx : Nat) (err : String) : allIdx idx (failEvents idx err) := by
  unfold failEvents
  cases truncate_error err
  · exact allIdx_nil idx
  · exact allIdx_cons idx _ [] (allIdx_nil idx)

theorem localUpdateStage_allIdx (idx : Nat) (fork : Fork) (env : Env)
    (cb : Option Nat) (ob : String) (st od : Bool) :
    allIdx idx (localUpdateStage idx fork env cb ob st od).1 := by
  intro e he
  cases od <;> cases st <;>
    simp only [localUpdateStage, Bool.false_eq_true, if_false, if_true,
      List.nil_append, List.append_nil, List.cons_append, List.mem_cons,
      List.not_mem_nil, or_false] at he <;>
    rcases he with rfl | rfl | rfl | rfl <;> rfl

theorem syncStage_allIdx (idx : Nat) (fork : Fork) (env : Env)
    (cb : Option Nat) (ob : String) (st od : Bool) :
    allIdx idx (syncStage idx fork env cb ob st od).1 := by
  unfold syncStage
  split
  · dsimp only
    exact allIdx_cons idx _ _ (localUpdateStage_allIdx idx fork env cb ob st od)
  · exact allIdx_cons idx _ _ (allIdx_cons idx _ [] (allIdx_nil idx))

theorem checkoutStage_allIdx (idx : Nat) (fork : Fork) (env : Env)
    (cb : Option Nat) (ob : String) (st : Bool) :
    allIdx idx (checkoutStage idx fork env cb ob st).1 := by
  unfold checkoutStage
  dsimp only
  split
  · exact syncStage_allIdx idx fork env cb ob st true
  · split
    · dsimp only
      exact syncStage_allIdx idx fork env cb ob st false
    · exact allIdx_cons idx _ [] (allIdx_nil idx)

theorem stashStage_allIdx (idx : Nat) (fork : Fork) (env : Env)
    (cb : Option Nat) (ob : String) (dirty : Bool) :
    allIdx idx (stashStage idx fork env cb ob dirty).1 := by
  unfold stashStage
  split
  · split
    · dsimp only
      exact allIdx_cons idx _ _ (checkoutStage_allIdx idx fork env cb ob true)
    · exact allIdx_cons idx _ _ (allIdx_cons idx _ [] (allIdx_nil idx))
  · exact checkoutStage_allIdx idx fork env cb ob false

theorem sync_fork_remote_allIdx (idx : Nat) (fork : Fork) (env : Env) :
    allIdx idx (sync_fork_remote idx fork env).1 := by
  unfold sync_fork_remote
  dsimp only
  split
  · split
    · exact allIdx_cons idx _ _ (allIdx_cons idx _ [] (allIdx_nil idx))
    · split
      · exact allIdx_cons idx _ _ (allIdx_cons idx _ [] (allIdx_nil idx))
      · exact allIdx_cons idx _ _ (allIdx_failEvents idx _)
  · exact allIdx_cons idx _ _ (allIdx_failEvents idx _)

/-- Every event `sync_single_fork` sends is routed to its own job index. -/
theorem sync_single_fork_allIdx (idx : Nat) (fork : Fork) (dry : Bool) (env : Env) :
    allIdx idx (sync_single_fork idx fork dry env).1 := by
  unfold sync_single_fork
  split
  · exact allIdx_cons idx _ _ (allIdx_cons idx _ [] (allIdx_nil idx))
  · split
    · dsimp only
      exact allIdx_cons idx _ _ (sync_fork_remote_allIdx idx fork env)
    · dsimp only
      split <;> try dsimp only
      · exact allIdx_cons idx _ _ (allIdx_failEvents idx _)
      · split <;> try dsimp only
        · split
          · split
            · exact allIdx_cons idx _ _ (allIdx_cons idx _ [] (allIdx_nil idx))
            · dsimp only
              exact allIdx_cons idx _ _ (stashStage_allIdx idx fork env _ _ _)
          · exact allIdx_cons idx _ _ (allIdx_cons idx _ [] (allIdx_nil idx))
        · exact allIdx_cons idx _ _ (allIdx_cons idx _ [] (allIdx_nil idx))

/-- Position decomposition in a flattened list: every position falls inside
one block, at offset `o` past the total length of the earlier blocks. -/
theorem flatten_pos_decomp (L : List (List SyncResult)) (p : Nat)
    (hp : p < L.flatten.length) :
    ∃ (k : Nat) (hk : k < L.length) (o : Nat),
      p = ((L.map List.length).take k).sum + o ∧
      o < (L.get ⟨k, hk⟩).length ∧
      L.flatten.get ⟨p, hp⟩ ∈ L.get ⟨k, hk⟩ := by
  induction L generalizing p with
  | nil => simp at hp
  | cons B L ih =>
    have hp' : p < (B ++ L.flatten).length := by simpa using hp
    by_cases hpB : p < B.length
    · refine ⟨0, by simp, p, by simp, hpB, ?_⟩
      have hget : (B :: L).flatten.get ⟨p, hp⟩ = B.get ⟨p, hpB⟩ := by
        simp only [List.flatten_cons, List.get_eq_getElem]
        exact List.getElem_append_left hpB
      rw [hget]
      exact List.get_mem B p hpB
    · have hle : B.length ≤ p := Nat.le_of_not_lt hpB
      have hp2 : p - B.length < L.flatten.length := by
        simp only [List.flatten_cons, List.length_append] at hp'
        omega
      obtain ⟨k, hk, o, hsum, ho, hmem⟩ := ih (p - B.length) hp2
      refine ⟨k + 1, by simpa using hk, o, ?_, ho, ?_⟩
      · simp only [List.map_cons, List.take_succ_cons, List.sum_cons]
        omega
      · have hget : (B :: L).flatten.get ⟨p, hp⟩ = L.flatten.get ⟨p - B.length, hp2⟩ := by
          simp only [List.flatten_cons, List.get_eq_getElem]
          exact List.getElem_append_right hle
        rw [hget]
        exact hmem

/-- Prefix sums of a list of naturals are monotone. -/
theorem sum_take_mono (l : List Nat) (a b : Nat) (hab : a ≤ b) :
    (l.take a).sum ≤ (l.take b).sum := by
  have h1 : (l.take b).take a = l.take a := by
    rw [List.take_take, Nat.min_eq_left hab]
  have h2 := List.sum_take_add_sum_drop (l.take b) a
  rw [h1] at h2
  omega

/-- C7: within one batch, jobs execute strictly sequentially in list order —
for jobs at distinct positions `k1 < k2` of a batch with pairwise-distinct
indices, every event routed to job `k1`'s index occupies an earlier position
in the batch event stream than any event routed to job `k2`'s index.  (The
fixed 100 ms pause between jobs is real-time behaviour outside this model.) -/
theorem start_syncing_sequential (jobs : List (Nat × Fork)) (dry : Bool) (env : Env)
    (hnd : (jobs.map Prod.fst).Nodup)
    (k1 k2 p1 p2 : Nat)
    (hk1 : k1 < jobs.length) (hk2 : k2 < jobs.length) (hkk : k1 < k2)
    (hp1 : p1 < (start_syncing jobs dry env).length)
    (hp2 : p2 < (start_syncing jobs dry env).length)
    (he1 : eventIdx ((start_syncing jobs dry env).get ⟨p1, hp1⟩) =
      some (jobs.get ⟨k1, hk1⟩).1)
    (he2 : eventIdx ((start_syncing jobs dry env).get ⟨p2, hp2⟩) =
      some (jobs.get ⟨k2, hk2⟩).1) :
    p1 < p2 := by
  classical
  set blocks := jobs.map (fun p => (sync_single_fork p.1 p.2 dry env).1) with hblocks
  have hlen : blocks.length = jobs.length := by simp [hblocks]
  have hflat : start_syncing jobs dry env = blocks.flatten := rfl
  have key : ∀ (p : Nat) (hp : p < (start_syncing jobs dry env).length)
      (k : Nat) (hk : k < jobs.length),
      eventIdx ((start_syncing jobs dry env).get ⟨p, hp⟩) = some (jobs.get ⟨k, hk⟩).1 →
      ∃ o, p = ((blocks.map List.length).take k).sum + o ∧
        o < (blocks.get ⟨k, hlen ▸ hk⟩).length := by
    intro p hp k hk he
    have hp' : p < blocks.flatten.length := by rw [← hflat]; exact hp
    obtain ⟨kb, hkb, o, hsum, ho, hmem⟩ := flatten_pos_decomp blocks p hp'
    have hkbj : kb < jobs.length := hlen ▸ hkb
    have hblk : blocks.get ⟨kb, hkb⟩ =
        (sync_single_fork (jobs.get ⟨kb, hkbj⟩).1 (jobs.get ⟨kb, hkbj⟩).2 dry env).1 := by
      simp [hblocks]
    have hidx : eventIdx (blocks.flatten.get ⟨p, hp'⟩) = some (jobs.get ⟨kb, hkbj⟩).1 := by
      apply sync_single_fork_allIdx (jobs.get ⟨kb, hkbj⟩).1 (jobs.get ⟨kb, hkbj⟩).2 dry env
      rw [← hblk]
      exact hmem
    have hsame : ((start_syncing jobs dry env).get ⟨p, hp⟩) =
        blocks.flatten.get ⟨p, hp'⟩ := by
      congr 1
    rw [hsame, hidx] at he
    have hfst : (jobs.map Prod.fst).get ⟨kb, by simpa using hkbj⟩ =
        (jobs.map Prod.fst).get ⟨k, by simpa using hk⟩ := by
      simp only [List.get_eq_getElem, List.getElem_map]
      exact Option.some_inj.mp he
    have : kb = k := by
      have h := (hnd.get_inj_iff).mp hfst
      exact congrArg Fin.val h
    subst this
    exact ⟨o, hsum, ho⟩
  obtain ⟨o1, hsum1, ho1⟩ := key p1 hp1 k1 hk1 he1
  obtain ⟨o2, hsum2, _⟩ := key p2 hp2 k2 hk2 he2
  have hk1b : k1 < blocks.length := hlen ▸ hk1
  have hstep : ((blocks.map List.length).take (k1 + 1)).sum =
      ((blocks.map List.length).take k1).sum + (blocks.get ⟨k1, hk1b⟩).length := by
    have := List.sum_take_succ (blocks.map List.length) k1 (by simpa using hk1b)
    simpa using this
  have hmono : ((blocks.map List.length).take (k1 + 1)).sum ≤
      ((blocks.map List.length).take k2).sum :=
    sum_take_mono _ _ _ (by omega)
  omega

/-- Witness for C7: in a concrete two-job batch the event of job 0 at
position 0 precedes the event of job 1 at position 2. -/
theorem start_syncing_sequential_witness :
    0 < (2 : Nat) ∧
    ((([(0, sampleFork), (1, sampleFork)].map Prod.fst).Nodup) ∧
      eventIdx ((start_syncing [(0, sampleFork), (1, sampleFork)] true envAllOk).get
        ⟨0, by decide⟩) = some 0 ∧
      eventIdx ((start_syncing [(0, sampleFork), (1, sampleFork)] true envAllOk).get
        ⟨2, by decide⟩) = some 1) :=
  ⟨start_syncing_sequential [(0, sampleFork), (1, sampleFork)] true envAllOk
      (by decide) 0 1 0 2 (by decide) (by decide) (by decide) (by decide)
      (by decide) rfl rfl,
   by decide, rfl, rfl⟩

end RepoSyncer
